import Mathlib

/-!
Verification of the IGA brand-based weekly scraper
(`src/Scrapping/website_api_scraper/iga_ipa_scraping.py`).

The script is shallowly embedded: JSON payloads become an inductive `Json`
type, the filesystem becomes an explicit `String → Option Nat` size map,
HTTP outcomes become an inductive type, and the per-brand pagination loop
becomes a fueled step function over an explicit `LoopState`.  Python's
truthiness, `str()`, `strip()` and `dict.get` semantics are modelled
explicitly where the script relies on them.
-/

set_option maxRecDepth 100000

namespace Iga

/-- JSON values as produced by `response.json()`.  Numbers in the payloads
this scraper consumes (`total`, prices) are integral, so JSON numbers are
modelled as `Int`; `bool` is kept separate because Python distinguishes it
from `int` only partially (`isinstance(True, int)` holds). -/
inductive Json where
  | null
  | bool (b : Bool)
  | int (n : Int)
  | str (s : String)
  | arr (elems : List Json)
  | obj (fields : List (String × Json))

/-- Python truthiness (`bool(x)`) for JSON-shaped values:
`None`, `False`, `0`, `""`, `[]`, and the empty dict are falsy. -/
def Json.truthy : Json → Bool
  | .null => false
  | .bool b => b
  | .int n => n != 0
  | .str s => s != ""
  | .arr xs => !xs.isEmpty
  | .obj fs => !fs.isEmpty

/-- First binding for a key in an association list (dict keys are unique
after JSON parsing, so first-match lookup is the dict lookup). -/
def lookupField : List (String × Json) → String → Option Json
  | [], _ => none
  | (k, v) :: rest, key => if k = key then some v else lookupField rest key

/-- `payload.get(key)`.  In Python this is only defined on dicts (calling
`.get` on a non-dict raises `AttributeError`); theorems about the
pagination loop therefore restrict payloads to objects. -/
def Json.get : Json → String → Option Json
  | .obj fields, key => lookupField fields key
  | _, _ => none

/-- Whether a value is a dict (`isinstance(x, dict)`). -/
def Json.isObj : Json → Bool
  | .obj _ => true
  | _ => false

/-- Replace the binding for a key, appending when absent
(`d[key] = v` on a dict). -/
def setField : List (String × Json) → String → Json → List (String × Json)
  | [], key, v => [(key, v)]
  | (k, w) :: rest, key, v =>
      if k = key then (key, v) :: rest else (k, w) :: setField rest key v

/-- `d[key] = v`; leaves non-dicts unchanged (Python would raise, and the
script only assigns into dicts). -/
def Json.set : Json → String → Json → Json
  | .obj fs, key, v => .obj (setField fs key v)
  | j, _, _ => j

mutual
/-- Python `repr`-style rendering used by `str()` on containers.  String
escaping inside `repr` is elided (quotes are emitted, escapes are not);
no claim depends on the rendering of containers. -/
def Json.render : Json → String
  | .null => "None"
  | .bool true => "True"
  | .bool false => "False"
  | .int n => toString n
  | .str s => "\x27" ++ s ++ "\x27"
  | .arr es => "[" ++ String.intercalate ", " (renderList es) ++ "]"
  | .obj kvs => "\x7b" ++ String.intercalate ", " (renderFields kvs) ++ "\x7d"

/-- Renders the elements of a JSON array. -/
def renderList : List Json → List String
  | [] => []
  | j :: rest => Json.render j :: renderList rest

/-- Renders the key-value pairs of a JSON object. -/
def renderFields : List (String × Json) → List String
  | [] => []
  | (k, v) :: rest => ("\x27" ++ k ++ "\x27: " ++ Json.render v) :: renderFields rest
end

/-- Python `str(x)` on JSON-shaped values. -/
def pyStr (j : Json) : String :=
  match j with
  | .str s => s
  | j => j.render

/-- The script's `safe_str`: `"" if x is None else str(x)`.  `Option.none`
models a Python `None` arising from a missing key; a JSON `null` also
arrives as Python `None`, so both map to `""`. -/
def safe_str : Option Json → String
  | none => ""
  | some .null => ""
  | some j => pyStr j

/-- Truthiness of an optional value (`None` is falsy). -/
def truthyOpt : Option Json → Bool
  | none => false
  | some j => j.truthy

/-- Python `a or b` on optional JSON values: `a` when truthy, otherwise `b`
(whatever its truthiness, as in Python). -/
def pyOr (a b : Option Json) : Option Json :=
  if truthyOpt a then a else b

/-- Python whitespace for `str.strip` and `\s` (ASCII portion). -/
def pyWs (c : Char) : Bool :=
  c = ' ' || c = '\t' || c = '\n' || c = '\x0d' || c = '\x0b' || c = '\x0c'

/-- Strip leading whitespace. -/
def trimL (l : List Char) : List Char := l.dropWhile pyWs

/-- Strip trailing whitespace. -/
def trimR (l : List Char) : List Char := (l.reverse.dropWhile pyWs).reverse

/-- Python `s.strip()`. -/
def pyStrip (s : String) : String := String.mk (trimR (trimL s.data))

mutual
/-- Replace each maximal whitespace run by a single space
(`re.sub(r"\s+", " ", s)`): emit one space at the start of a run, then
consume the rest of the run. -/
def collapseWs : List Char → List Char
  | [] => []
  | c :: rest => if pyWs c then ' ' :: skipWs rest else c :: collapseWs rest

/-- Consumes the remainder of a whitespace run. -/
def skipWs : List Char → List Char
  | [] => []
  | c :: rest => if pyWs c then skipWs rest else c :: collapseWs rest
end

/-- ASCII lowercase conversion (`str.lower`; brand names in the input CSV
are ASCII, non-ASCII case folding is out of scope). -/
def pyLowerChar (c : Char) : Char :=
  if 'A' ≤ c ∧ c ≤ 'Z' then Char.ofNat (c.toNat + 32) else c

/-- Lowercase a character list. -/
def pyLower (l : List Char) : List Char := l.map pyLowerChar

/-- The script's `norm_key`: strip, lowercase, collapse internal
whitespace runs to single spaces. -/
def norm_key (s : String) : String :=
  String.mk (collapseWs (pyLower (pyStrip s).data))

/-! ## Tuning constants -/

/-- Retry budget (`MAX_RETRIES`). -/
def MAX_RETRIES : Nat := 4

/-- Backoff base in seconds (`BACKOFF_BASE_S`). -/
def BACKOFF_BASE_S : ℚ := 1

/-- Page size (`TAKE`). -/
def TAKE : Nat := 50

/-! ## HTTP layer -/

/-- Outcome of one `session.get` call on the search endpoint: a response
with a status code and a body (`some j` when `r.json()` parses, `none`
when it raises), or one of the exception classes `request_json`
catches. -/
inductive HttpOutcome where
  | resp (code : Nat) (body : Option Json)
  | timeout
  | connError
  | otherExc

/-- The script's `request_json`, branch for branch: 429 and 403 are named
failures, any other non-200 is a generic `HTTP_<code>` failure, a 200 body
that fails to parse is `INVALID_JSON`, and the caught exception classes
map to their named statuses.  Total — no outcome raises. -/
def request_json (o : HttpOutcome) : Option Json × String :=
  match o with
  | .resp code body =>
      if code = 429 then (none, "RATE_LIMITED_429")
      else if code = 403 then (none, "BLOCKED_403")
      else if code ≠ 200 then (none, "HTTP_" ++ toString code)
      else
        match body with
        | some j => (some j, "SUCCESS")
        | none => (none, "INVALID_JSON")
  | .timeout => (none, "TIMEOUT")
  | .connError => (none, "CONNECTION_ERROR")
  | .otherExc => (none, "ERROR_UNKNOWN")

/-- The sleep computed between retry attempts: `delay = (BACKOFF_BASE_S *
(1 + attempt)) * random.uniform(0.8, 1.6)` raised to at least
`10.0 + random.uniform(0, 5)` after a `BLOCKED_403`.  The two random
draws for the attempt are passed in as `u`. -/
def retry_delay (attempt : Nat) (status : String) (u : ℚ × ℚ) : ℚ :=
  if status = "BLOCKED_403" then
    max ((BACKOFF_BASE_S * (1 + (attempt : ℚ))) * u.1) (10 + u.2)
  else (BACKOFF_BASE_S * (1 + (attempt : ℚ))) * u.1

/-- One iteration of the `with_retries` loop, recursing over the number of
remaining attempts.  `calls i` is the result of the i-th invocation of
`fn`, `u i` the random draws used for the i-th backoff.  Besides the
`(payload, status)` pair the source returns, the model also reports how
many times `fn` was invoked and the sequence of sleeps performed, so the
retry policy is observable. -/
def with_retries_go (calls : Nat → Option Json × String) (u : Nat → ℚ × ℚ) :
    Nat → Nat → Option Json × String → (Option Json × String) × Nat × List ℚ
  | 0, _, prev => (prev, 0, [])
  | remaining + 1, attempt, _ =>
      let res := calls attempt
      if res.2 = "SUCCESS" then (res, 1, [])
      else
        let d := retry_delay attempt res.2 (u attempt)
        let rest := with_retries_go calls u remaining (attempt + 1) res
        (rest.1, rest.2.1 + 1, d :: rest.2.2)

/-- The script's `with_retries`: up to `MAX_RETRIES` invocations of `fn`,
returning the first `SUCCESS` immediately and otherwise the last
`(payload, status)` after the loop ends. -/
def with_retries (calls : Nat → Option Json × String) (u : Nat → ℚ × ℚ) :
    (Option Json × String) × Nat × List ℚ :=
  with_retries_go calls u MAX_RETRIES 0 (none, "UNKNOWN")

/-! ## Payload parsers -/

/-- The script's `extract_items`: the dict-typed elements of the `items`
field when it is a list, `[]` otherwise.  Total — cannot raise. -/
def extract_items (payload : Json) : List Json :=
  match payload.get "items" with
  | some (.arr xs) => xs.filter Json.isObj
  | _ => []

/-- The script's `extract_total`: `payload.get("total")` guarded by
`isinstance(t, int)`.  Python's `bool` is a subclass of `int`, so a JSON
boolean passes the guard and behaves as 1 or 0; everything else yields
`None`. -/
def extract_total (payload : Json) : Option Int :=
  match payload.get "total" with
  | some (.int n) => some n
  | some (.bool b) => some (if b then 1 else 0)
  | _ => none

/-- The script's `extract_sku_from_item`:
`safe_str(item.get("sku") or item.get("productId") or "").strip()`. -/
def extract_sku_from_item (item : Json) : String :=
  pyStrip (safe_str (pyOr (pyOr (item.get "sku") (item.get "productId")) (some (.str ""))))

/-! ## Brand list loader -/

/-- Column names recognised as the brand column (`BRAND_COLUMN_CANDIDATES`). -/
def BRAND_COLUMN_CANDIDATES : List String :=
  ["brand", "Brands", "BrandName", "brand_name", "name"]

/-- A parsed CSV: columns in order, each a name with its cell values
(`none` models a missing/NaN cell). -/
abbrev Frame := List (String × List (Option String))

/-- The column names of a frame (`df.columns`). -/
def frame_columns (df : Frame) : List String := df.map Prod.fst

/-- Column selection in `load_brands_from_csv`: the first candidate name
present in the frame wins; otherwise fall back to the first column.
`none` only when the frame has no columns at all (where pandas itself
fails). -/
def select_brand_column (df : Frame) : Option (List (Option String)) :=
  match BRAND_COLUMN_CANDIDATES.find? (fun c => (frame_columns df).contains c) with
  | some c => (df.find? (fun col => col.1 = c)).map Prod.snd
  | none => df.head?.map Prod.snd

/-- The series pipeline in `load_brands_from_csv`:
`.dropna().astype(str).map(strip).loc[s != ""]`. -/
def clean_brand_values (vals : List (Option String)) : List String :=
  ((vals.filterMap id).map pyStrip).filter (fun s => s != "")

/-- The dedup fold at the end of `load_brands_from_csv`: keep a brand when
its `norm_key` has not been seen, remembering keys in `seen`. -/
def dedupe_brands_go (seen : List String) : List String → List String
  | [] => []
  | b :: rest =>
      let k := norm_key b
      if k ∈ seen then dedupe_brands_go seen rest
      else b :: dedupe_brands_go (k :: seen) rest

/-- The script's `load_brands_from_csv` on a parsed frame. -/
def load_brands_from_csv (df : Frame) : Option (List String) :=
  (select_brand_column df).map (fun vals => dedupe_brands_go [] (clean_brand_values vals))

/-! ## Optional image download -/

/-- Filesystem snapshot: maps a path to the size of the file there, or
`none` when no file exists. -/
abbrev FS := String → Option Nat

/-- Point update of the filesystem (create/overwrite with `some`, delete
with `none`). -/
def fsSet (fs : FS) (p : String) (v : Option Nat) : FS :=
  fun q => if q = p then v else fs q

/-- Outcome of the streaming GET in `download_image_if_needed`: a response
(status code and body size), or an exception raised somewhere in the
`try` block — `tmpWritten` records whether the temp file had already been
created (with `partialSize` bytes) when the exception hit. -/
inductive ImgFetch where
  | resp (code : Nat) (size : Nat)
  | exc (tmpWritten : Bool) (partialSize : Nat)

/-- `./images/iga/{sku}.jpg` (`BASE_DIR` elided). -/
def img_local_path (sku : String) : String := "images/iga/" ++ sku ++ ".jpg"

/-- The relative path returned to callers. -/
def img_web_rel (sku : String) : String := "iga/" ++ sku ++ ".jpg"

/-- The temporary download path `local_path + ".part"`. -/
def img_tmp_path (sku : String) : String := img_local_path sku ++ ".part"

/-- Result of `download_image_if_needed`: the `(written, local_path,
web_rel)` triple the source returns, plus the resulting filesystem and
whether a network request was issued. -/
structure ImgResult where
  written : Bool
  localPath : String
  webRel : String
  fs : FS
  networkCalled : Bool

/-- The network-touching part of `download_image_if_needed` (everything
after the exists-and-non-empty check): stream the body to the temp path,
`os.replace` it into place, remove a zero-byte result; on a non-200
return before creating the temp file; on an exception remove the temp
file if present. -/
def download_fetch (fs : FS) (fetch : ImgFetch) (sku : String) : ImgResult :=
  let lp := img_local_path sku
  let tmp := img_tmp_path sku
  match fetch with
  | .resp code size =>
      if code ≠ 200 then ⟨false, "", "", fs, true⟩
      else
        let fsTmp := fsSet fs tmp (some size)
        let fsMoved := fsSet (fsSet fsTmp tmp none) lp (some size)
        if size = 0 then ⟨false, "", "", fsSet fsMoved lp none, true⟩
        else ⟨true, lp, img_web_rel sku, fsMoved, true⟩
  | .exc tmpWritten partialSize =>
      let fsE := if tmpWritten then fsSet fs tmp (some partialSize) else fs
      ⟨false, "", "", fsSet fsE tmp none, true⟩

/-- The script's `download_image_if_needed`: bail out on empty url/sku,
skip (no network call) when a non-empty file already exists for the SKU,
otherwise perform the download. -/
def download_image_if_needed (fs : FS) (fetch : ImgFetch) (image_url sku : String) :
    ImgResult :=
  if image_url = "" ∨ sku = "" then ⟨false, "", "", fs, false⟩
  else
    match fs (img_local_path sku) with
    | some n =>
        if 0 < n then ⟨false, img_local_path sku, img_web_rel sku, fs, false⟩
        else download_fetch fs fetch sku
    | none => download_fetch fs fetch sku

/-! ## Run / checkpoint lifecycle -/

/-- Python `x == s` between a JSON value (possibly missing) and a string
literal: true exactly when the value is that string. -/
def isStrEq (o : Option Json) (s : String) : Bool :=
  match o with
  | some (.str t) => t == s
  | _ => false

/-- The script's `load_or_create_run_id` over the loaded `run_progress`
document `rp`: reuse `str(rp["run_id"])` when the status is `RUNNING` and
the stored run id is truthy; otherwise mint a fresh id.  `fresh` stands
for `datetime.now().strftime("%Y%m%d_%H%M%S")`. -/
def load_or_create_run_id (rp : Json) (fresh : String) : String :=
  if isStrEq (rp.get "status") "RUNNING" ∧ truthyOpt (rp.get "run_id") then
    safe_str (rp.get "run_id")
  else fresh

/-- The script's `mark_run_done` over the loaded `run_progress` document:
when the stored run id matches, set status `DONE` and stamp
`finished_at`/`updated_at` and save (`some` result); otherwise return
without saving (`none`).  `now` stands for `now_ts()`. -/
def mark_run_done (rp : Json) (run_id now : String) : Option Json :=
  if isStrEq (rp.get "run_id") run_id then
    some (((rp.set "status" (.str "DONE")).set "finished_at" (.str now)).set
      "updated_at" (.str now))
  else none

/-! ## SKU index -/

/-- One `sku_index.json` entry. -/
structure SkuEntry where
  first_seen : String
  last_seen : String
  brands : List String

/-- The persisted SKU index, keyed by SKU. -/
abbrev SkuIndex := List (String × SkuEntry)

/-- First entry for a SKU. -/
def skuLookup : SkuIndex → String → Option SkuEntry
  | [], _ => none
  | (k, e) :: rest, sku => if k = sku then some e else skuLookup rest sku

/-- Replace the entry for a SKU (present by construction at call sites). -/
def skuSet : SkuIndex → String → SkuEntry → SkuIndex
  | [], sku, e => [(sku, e)]
  | (k, old) :: rest, sku, e =>
      if k = sku then (sku, e) :: rest else (k, old) :: skuSet rest sku e

/-- The script's `update_sku_index`: ignore empty SKUs; create an entry on
first sight; otherwise refresh `last_seen` and append the brand to the
entry's brand list when new (`entry.get("brands") or []` only matters for
degenerate persisted entries and collapses to the stored list here). -/
def update_sku_index (si : SkuIndex) (sku brand now : String) : SkuIndex :=
  if sku = "" then si
  else
    match skuLookup si sku with
    | none => si ++ [(sku, ⟨now, now, [brand]⟩)]
    | some e =>
        let brands := if brand ∈ e.brands then e.brands else e.brands ++ [brand]
        skuSet si sku ⟨e.first_seen, now, brands⟩

/-! ## Row materialisation -/

/-- One output row.  The source row also carries a barcode, the full price
column set, the image URL, and a flattened copy of every nested item
field; `raw` retains the complete item, and the claims under verification
concern row identity via `sku`. -/
structure Row where
  sku : String
  name : String
  brandName : String
  priceDisplay : String
  scrapedAt : String
  runId : String
  brandQuery : String
  raw : Json

/-- The script's `item_to_row` (core columns; see `Row`). -/
def item_to_row (item : Json) (brand_query run_id now : String) : Row :=
  { sku := extract_sku_from_item item
    name := safe_str (pyOr (item.get "name") (some (.str "")))
    brandName := safe_str (pyOr (item.get "brand") (some (.str "")))
    priceDisplay := safe_str (pyOr (item.get "price") (some (.str "")))
    scrapedAt := now
    runId := run_id
    brandQuery := brand_query
    raw := item }

/-! ## The per-brand pagination loop -/

/-- The in-memory state threaded through one brand's `while True` loop:
the paging cursor (`skip`, `total_expected`, `page_count`) plus the
run-wide accumulators (`seen_skus`, the appended `rows` — the JSONL file
receives exactly the same appends — and the SKU index `si`). -/
structure LoopState where
  skip : Nat
  total_expected : Option Int
  page_count : Nat
  seen_skus : List String
  rows : List Row
  si : SkuIndex

/-- Processing of a single item in the page loop body: skip empty SKUs,
always update the SKU index, and only for unseen SKUs append a row (to
the in-memory list and the JSONL file alike) and extend the seen-set. -/
def process_item (brand run_id now : String) (st : LoopState) (it : Json) : LoopState :=
  let sku := extract_sku_from_item it
  if sku = "" then st
  else
    let si := update_sku_index st.si sku brand now
    if sku ∈ st.seen_skus then { st with si := si }
    else
      { st with
          si := si
          rows := st.rows ++ [item_to_row it brand run_id now]
          seen_skus := sku :: st.seen_skus }

/-- The `for it in items` loop over one page. -/
def process_items (brand run_id now : String) (st : LoopState) (items : List Json) :
    LoopState :=
  items.foldl (process_item brand run_id now) st

/-- How one iteration of the brand loop ended. -/
inductive ExitKind where
  | fetchFail
  | emptyItems
  | shortPage
  | totalReached
deriving DecidableEq

/-- The brand-progress document `bp[bkey]` written when the loop ends
(`updated_at` elided). -/
structure BrandDoc where
  skip : Nat
  done : Bool
  total : Option Int

/-- A finished brand loop: how it exited, the brand-progress document
persisted at that point, and the final in-memory state. -/
structure BrandExit where
  kind : ExitKind
  doc : BrandDoc
  st : LoopState

/-- The `total_expected` after one successful page: learned from the
payload when still unknown (`if total_expected is None`), kept
otherwise. -/
def pageTotal (st : LoopState) (payload : Json) : Option Int :=
  if st.total_expected = none then extract_total payload else st.total_expected

/-- The state after the body of one successful, non-empty page iteration:
`total_expected` learned, every item processed, `skip += TAKE`,
`page_count += 1`. -/
def advanceState (brand run_id now : String) (st : LoopState) (payload : Json) :
    LoopState :=
  let st1 := process_items brand run_id now
    { st with total_expected := pageTotal st payload } (extract_items payload)
  { st1 with skip := st1.skip + TAKE, page_count := st1.page_count + 1 }

/-- One iteration of the `while True` body for a brand, given the
`(payload, status)` the page fetch produced: fail out on a falsy payload
or non-SUCCESS status; learn `total_expected` from the first successful
page; stop on an empty item list; otherwise process the items, advance
`skip` by `TAKE`, and stop on a short page or once `skip` reaches the
learned total.  `Sum.inl` is an exit, `Sum.inr` continues the loop. -/
def brandStep (brand run_id now : String) (resp : Option Json × String)
    (st : LoopState) : BrandExit ⊕ LoopState :=
  match resp with
  | (none, _) => .inl ⟨.fetchFail, ⟨st.skip, false, st.total_expected⟩, st⟩
  | (some payload, status) =>
      if ¬payload.truthy ∨ status ≠ "SUCCESS" then
        .inl ⟨.fetchFail, ⟨st.skip, false, st.total_expected⟩, st⟩
      else if (extract_items payload).isEmpty then
        .inl ⟨.emptyItems, ⟨st.skip, true, pageTotal st payload⟩,
          { st with total_expected := pageTotal st payload }⟩
      else if (extract_items payload).length < TAKE then
        .inl ⟨.shortPage, ⟨(advanceState brand run_id now st payload).skip, true,
          pageTotal st payload⟩, advanceState brand run_id now st payload⟩
      else
        match pageTotal st payload with
        | some t =>
            if t ≤ ((advanceState brand run_id now st payload).skip : Int) then
              .inl ⟨.totalReached, ⟨(advanceState brand run_id now st payload).skip, true,
                pageTotal st payload⟩, advanceState brand run_id now st payload⟩
            else .inr (advanceState brand run_id now st payload)
        | none => .inr (advanceState brand run_id now st payload)

/-- The fueled brand loop: `responses n` is the `(payload, status)` pair
the n-th call to `fetch_search_page` returns (after its retry layer).
`none` means the fuel ran out before the loop exited. -/
def brandLoop (responses : Nat → Option Json × String) (brand run_id now : String) :
    Nat → Nat → LoopState → Option BrandExit
  | 0, _, _ => none
  | fuel + 1, idx, st =>
      match brandStep brand run_id now (responses idx) st with
      | .inl ex => some ex
      | .inr st2 => brandLoop responses brand run_id now fuel (idx + 1) st2

/-- A fetch result whose payload, when present, is a dict.  Python's
`payload.get`/`extract_*` calls are only defined on dicts (the API always
returns an object), so loop theorems quantify over such streams. -/
def RespWF (resp : Option Json × String) : Prop :=
  ∀ j, resp.1 = some j → j.isObj = true

/-! ## Resume gating of the outer brand loop -/

/-- What the outer `for bi, brand in enumerate(brands)` loop does with one
brand. -/
inductive BrandDisposition where
  | skippedByRunIndex
  | skippedEmptyName
  | skippedDone
  | processed
deriving DecidableEq

/-- The guard sequence at the top of the outer loop (lines 524–539 of the
source): the coarse run-level `last_brand_index` check fires first and
unconditionally; only brands past it are checked for an empty name or a
brand-level `done` flag before being processed. -/
def brand_disposition (bi : Nat) (last_brand_index : Int)
    (brand : String) (bp : List (String × BrandDoc)) : BrandDisposition :=
  if (bi : Int) ≤ last_brand_index then .skippedByRunIndex
  else if pyStrip brand = "" then .skippedEmptyName
  else
    match lookupDoc bp (norm_key (pyStrip brand)) with
    | some doc => if doc.done then .skippedDone else .processed
    | none => .processed
where
  /-- `bp.get(bkey, default)`: first binding for the brand key. -/
  lookupDoc : List (String × BrandDoc) → String → Option BrandDoc
    | [], _ => none
    | (k, d) :: rest, key => if k = key then some d else lookupDoc rest key

/-! ## Termination triggers for the brand loop -/

/-- The fail-branch condition `not payload or status != "SUCCESS"`. -/
def respFails (resp : Option Json × String) : Prop :=
  match resp.1 with
  | none => True
  | some j => j.truthy = false ∨ resp.2 ≠ "SUCCESS"

/-- Items carried by a fetch result. -/
def respItems (resp : Option Json × String) : List Json :=
  match resp.1 with
  | some j => extract_items j
  | none => []

/-- A fetch result that forces the loop to stop paging: a failed fetch, a
short (or empty) page, or a page carrying a usable `total`. -/
def respTrigger (resp : Option Json × String) : Prop :=
  respFails resp ∨ (respItems resp).length < TAKE ∨ resp.1.bind extract_total ≠ none

/-- Termination of the brand loop from a given position: some fuel makes
it exit. -/
def brandLoopTerminates (responses : Nat → Option Json × String)
    (brand run_id now : String) (idx : Nat) (st : LoopState) : Prop :=
  ∃ fuel ex, brandLoop responses brand run_id now fuel idx st = some ex

/-! ## Concrete scenario data -/

/-- The loop state of a fresh brand with no persisted progress or index. -/
def initLoopState : LoopState := ⟨0, none, 0, [], [], []⟩

/-- A persisted SKU index already containing SKU `S1` from an earlier
run. -/
def c1si : SkuIndex := [("S1", ⟨"t0", "t0", ["Old"]⟩)]

/-- Startup state seeded from `c1si`: `seen_skus = set(si.keys())`. -/
def c1st : LoopState := ⟨0, none, 0, ["S1"], [], c1si⟩

/-- A single short page carrying the already-indexed `S1` and the novel
`S2`. -/
def c1page : Json :=
  Json.obj [("items", Json.arr [Json.obj [("sku", Json.str "S1")],
                                Json.obj [("sku", Json.str "S2")]])]

/-- Fetch stream returning `c1page` forever. -/
def c1resp : Nat → Option Json × String := fun _ => (some c1page, "SUCCESS")

/-- The run of the seeded scenario (exits on the short first page). -/
def c1run : Option BrandExit := brandLoop c1resp "B" "r1" "t1" 1 0 c1st

/-- The exit of the seeded scenario. -/
def c1ex : BrandExit := c1run.get (by rfl)

/-- Item with SKU `SKU<i>`. -/
def c2item (i : Nat) : Json := Json.obj [("sku", Json.str ("SKU" ++ toString i))]

/-- First page of the `Acme` scenario: exactly `TAKE` items and a learned
total of 62. -/
def c2page1 : Json :=
  Json.obj [("items", Json.arr ((List.range 50).map c2item)), ("total", Json.int 62)]

/-- Second page of the `Acme` scenario: 12 items. -/
def c2page2 : Json :=
  Json.obj [("items", Json.arr ((List.range 12).map (fun i => c2item (50 + i))))]

/-- The `Acme` fetch stream: a full page of 50, then pages of 12. -/
def c2resp (n : Nat) : Option Json × String :=
  if n = 0 then (some c2page1, "SUCCESS") else (some c2page2, "SUCCESS")

/-- The `Acme` scenario run from a fresh state. -/
def c2run : Option BrandExit := brandLoop c2resp "Acme" "r1" "t1" 3 0 initLoopState

/-- The `Acme` scenario's exit. -/
def c2ex : BrandExit := c2run.get (by rfl)

/-- An item for the non-terminating stream. -/
def c3item : Json := Json.obj [("sku", Json.str "X")]

/-- A full page (exactly `TAKE` items) with no `total` field. -/
def c3page : Json := Json.obj [("items", Json.arr (List.replicate 50 c3item))]

/-- A stream of successful full pages that never reports a total. -/
def c3resp : Nat → Option Json × String := fun _ => (some c3page, "SUCCESS")

/-- A one-item page used to witness loop termination on a short page. -/
def c3wpage : Json := Json.obj [("items", Json.arr [Json.obj [("sku", Json.str "Y")]])]

/-- Stream returning the one-item page forever. -/
def c3wresp : Nat → Option Json × String := fun _ => (some c3wpage, "SUCCESS")

/-- Demo brand table: the `name` column appears before `brand`, but
`brand` is the earlier candidate and must win. -/
def c7df : Frame :=
  [("other", [some "x"]),
   ("name", [some "zzz"]),
   ("brand", [some "Acme", some "acme  Co", none, some "ACME", some "", some " Beta"])]

/-- The selected demo column. -/
def c7col : List (Option String) :=
  [some "Acme", some "acme  Co", none, some "ACME", some "", some " Beta"]

/-- The loaded demo brand list. -/
def c7out : List String := dedupe_brands_go [] (clean_brand_values c7col)

/-- The row/seen-set invariant maintained by the pagination loop relative
to the seed of SKUs known at startup: appended rows carry pairwise
distinct SKUs, every appended SKU is in the seen-set, the seed stays in
the seen-set, and no appended row carries a seeded SKU. -/
def SeenInv (seed : List String) (st : LoopState) : Prop :=
  (st.rows.map Row.sku).Nodup ∧
  (∀ r ∈ st.rows, r.sku ∈ st.seen_skus) ∧
  (∀ s ∈ seed, s ∈ st.seen_skus) ∧
  (∀ r ∈ st.rows, r.sku ∉ seed)

/-! ## C8: single-request error taxonomy -/

/-- C8: `request_json` always returns a `(payload, status)` pair and never
raises (it is a total function of the HTTP outcome): HTTP 200 with a
parsable body yields the parsed payload with `SUCCESS`; 429 and 403 yield
the distinct named failures `RATE_LIMITED_429` and `BLOCKED_403`; any
other non-200 code yields `HTTP_<code>`; an unparsable 200 body yields
`INVALID_JSON`; timeouts and connection errors yield their own named
failures, and any other exception yields `ERROR_UNKNOWN`. -/
theorem request_json_taxonomy :
    (∀ j, request_json (.resp 200 (some j)) = (some j, "SUCCESS")) ∧
    request_json (.resp 200 none) = (none, "INVALID_JSON") ∧
    (∀ b, request_json (.resp 429 b) = (none, "RATE_LIMITED_429")) ∧
    (∀ b, request_json (.resp 403 b) = (none, "BLOCKED_403")) ∧
    (∀ c b, c ≠ 200 → c ≠ 429 → c ≠ 403 →
      request_json (.resp c b) = (none, "HTTP_" ++ toString c)) ∧
    request_json .timeout = (none, "TIMEOUT") ∧
    request_json .connError = (none, "CONNECTION_ERROR") ∧
    request_json .otherExc = (none, "ERROR_UNKNOWN") ∧
    "RATE_LIMITED_429" ≠ "BLOCKED_403" := by
  refine ⟨fun j => rfl, rfl, fun b => rfl, fun b => rfl, ?_, rfl, rfl, rfl, by decide⟩
  intro c b h200 h429 h403
  simp [request_json, h200, h429, h403]

/-- Witness for C8 at a concrete generic code. -/
theorem request_json_taxonomy_witness :
    request_json (.resp 500 none) = (none, "HTTP_500") :=
  request_json_taxonomy.2.2.2.2.1 500 none (by decide) (by decide) (by decide)

/-! ## C10: payload extractors are total -/

/-- C10 counterexample: the claim says total extraction returns the
`total` field only when it is an integer and `None` otherwise, but
`isinstance(t, int)` also accepts a JSON boolean (Python's `bool` is a
subclass of `int`), so a payload whose `total` is `true` yields 1, not
`None`. -/
theorem extract_total_bool_counterexample :
    extract_total (Json.obj [("total", Json.bool true)]) = some 1 ∧
    extract_total (Json.obj [("total", Json.bool true)]) ≠ none := by
  refine ⟨rfl, by decide⟩

/-- C10 (amended): for every JSON payload, `extract_items` returns exactly
the dict-typed elements of the payload's `items` field and the empty list
when that field is missing or not a list, and `extract_total` returns the
`total` field when it is an integer or a boolean (Python bools are `int`
instances, acting as 1/0) and `None` otherwise; both are total functions,
so malformed (object) payloads cannot crash the pagination loop. -/
theorem extractors_total_shape :
    (∀ p xs, p.get "items" = some (.arr xs) → extract_items p = xs.filter Json.isObj) ∧
    (∀ p, (∀ xs, p.get "items" ≠ some (.arr xs)) → extract_items p = []) ∧
    (∀ p n, p.get "total" = some (.int n) → extract_total p = some n) ∧
    (∀ p b, p.get "total" = some (.bool b) →
      extract_total p = some (if b then 1 else 0)) ∧
    (∀ p, (∀ n, p.get "total" ≠ some (.int n)) →
      (∀ b, p.get "total" ≠ some (.bool b)) → extract_total p = none) := by
  refine ⟨?_, ?_, ?_, ?_, ?_⟩
  · intro p xs h
    simp [extract_items, h]
  · intro p h
    unfold extract_items
    cases hg : p.get "items" with
    | none => rfl
    | some j =>
      cases j with
      | arr xs => exact absurd hg (h xs)
      | null => rfl
      | bool b => rfl
      | int n => rfl
      | str s => rfl
      | obj fs => rfl
  · intro p n h
    simp [extract_total, h]
  · intro p b h
    simp [extract_total, h]
  · intro p hn hb
    unfold extract_total
    cases hg : p.get "total" with
    | none => rfl
    | some j =>
      cases j with
      | int n => exact absurd hg (hn n)
      | bool b => exact absurd hg (hb b)
      | null => rfl
      | str s => rfl
      | arr xs => rfl
      | obj fs => rfl

/-- Witness for C10 (amended) on a payload with a non-list-shaped total
and a mixed items list. -/
theorem extractors_total_shape_witness :
    extract_items (Json.obj [("items", Json.arr [Json.obj [], Json.int 3]),
      ("total", Json.str "n/a")]) = [Json.obj []] ∧
    extract_total (Json.obj [("items", Json.arr [Json.obj [], Json.int 3]),
      ("total", Json.str "n/a")]) = none := by
  constructor
  · exact extractors_total_shape.1 (Json.obj [("items", Json.arr [Json.obj [], Json.int 3]),
      ("total", Json.str "n/a")]) [Json.obj [], Json.int 3] rfl
  · exact extractors_total_shape.2.2.2.2 (Json.obj [("items", Json.arr [Json.obj [],
      Json.int 3]), ("total", Json.str "n/a")]) (by intro n h; simp [Json.get, lookupField] at h)
      (by intro b h; simp [Json.get, lookupField] at h)

/-! ## C5: coarse resume gate -/

/-- C5: on resume, the outer loop skips every brand whose index is at most
the run document's `last_brand_index`, unconditionally — the brand's own
progress document (including a `done = false` entry) is never consulted,
because the run-index check precedes the brand-level checks. -/
theorem resume_gate_skips_by_run_index (bi : Nat) (lbi : Int) (brand : String)
    (bp : List (String × BrandDoc)) (h : (bi : Int) ≤ lbi) :
    brand_disposition bi lbi brand bp = .skippedByRunIndex := by
  simp [brand_disposition, h]

/-- Witness for C5: brand index 1 with `last_brand_index = 2` is skipped
although its own progress document says `done = false`. -/
theorem resume_gate_skips_by_run_index_witness :
    brand_disposition.lookupDoc [("acme", ⟨50, false, some 120⟩)] (norm_key "Acme") =
      some ⟨50, false, some 120⟩ ∧
    brand_disposition 1 2 "Acme" [("acme", ⟨50, false, some 120⟩)] =
      .skippedByRunIndex :=
  ⟨rfl, resume_gate_skips_by_run_index 1 2 "Acme" [("acme", ⟨50, false, some 120⟩)]
    (by decide)⟩

/-! ## C6: run-id reuse and completion -/

/-- Looking up the key just written finds the new value. -/
theorem lookupField_setField_self (fs : List (String × Json)) (k : String) (v : Json) :
    lookupField (setField fs k v) k = some v := by
  induction fs with
  | nil => simp [setField, lookupField]
  | cons kv rest ih =>
      obtain ⟨k2, w⟩ := kv
      by_cases h : k2 = k
      · subst h
        simp [setField, lookupField]
      · simp [setField, lookupField, h, ih]

/-- Writing one key does not disturb lookups of another. -/
theorem lookupField_setField_other (fs : List (String × Json)) (k k2 : String) (v : Json)
    (h : k2 ≠ k) : lookupField (setField fs k v) k2 = lookupField fs k2 := by
  induction fs with
  | nil => simp [setField, lookupField, Ne.symm h]
  | cons kv rest ih =>
      obtain ⟨k3, w⟩ := kv
      by_cases h3 : k3 = k
      · subst h3
        simp [setField, lookupField, h, Ne.symm h]
      · simp [setField, lookupField, h3, ih]

/-- C6: at startup, a persisted run document with status `RUNNING` and a
truthy run id has that id reused (as `str(run_id)`), so the snapshot file
paths coincide and the run resumes; any other document yields the freshly
minted timestamp id.  `mark_run_done` on the matching run id saves the
document with status `DONE` and a `finished_at` stamp, and refuses to
touch a document belonging to a different run id. -/
theorem run_lifecycle :
    (∀ rp fresh j, rp.get "status" = some (.str "RUNNING") →
      rp.get "run_id" = some j → j.truthy = true →
      load_or_create_run_id rp fresh = pyStr j) ∧
    (∀ rp fresh, isStrEq (rp.get "status") "RUNNING" = false ∨
      truthyOpt (rp.get "run_id") = false →
      load_or_create_run_id rp fresh = fresh) ∧
    (∀ fs run_id now, lookupField fs "run_id" = some (.str run_id) →
      ∃ rp2, mark_run_done (.obj fs) run_id now = some rp2 ∧
        rp2.get "status" = some (.str "DONE") ∧
        rp2.get "finished_at" = some (.str now) ∧
        rp2.get "updated_at" = some (.str now)) ∧
    (∀ rp run_id now, isStrEq (rp.get "run_id") run_id = false →
      mark_run_done rp run_id now = none) := by
  refine ⟨?_, ?_, ?_, ?_⟩
  · intro rp fresh j hst hid htr
    have hcond : isStrEq (rp.get "status") "RUNNING" ∧ truthyOpt (rp.get "run_id") := by
      rw [hst, hid]
      exact ⟨by simp [isStrEq], by simpa [truthyOpt] using htr⟩
    rw [load_or_create_run_id, if_pos hcond, hid]
    cases j with
    | null => simp [Json.truthy] at htr
    | bool b => rfl
    | int n => rfl
    | str s => rfl
    | arr xs => rfl
    | obj kvs => rfl
  · intro rp fresh h
    rw [load_or_create_run_id, if_neg]
    intro hcond
    rcases h with h | h
    · simp [h] at hcond
    · simp [h] at hcond
  · intro fs run_id now hid
    have hmatch : isStrEq ((Json.obj fs).get "run_id") run_id = true := by
      simp [Json.get, isStrEq, hid]
    refine ⟨_, by rw [mark_run_done, if_pos hmatch], ?_, ?_, ?_⟩
    · show Json.get _ "status" = some (.str "DONE")
      simp only [Json.set, Json.get]
      rw [lookupField_setField_other _ _ _ _ (by decide),
        lookupField_setField_other _ _ _ _ (by decide),
        lookupField_setField_self]
    · show Json.get _ "finished_at" = some (.str now)
      simp only [Json.set, Json.get]
      rw [lookupField_setField_other _ _ _ _ (by decide),
        lookupField_setField_self]
    · show Json.get _ "updated_at" = some (.str now)
      simp only [Json.set, Json.get]
      rw [lookupField_setField_self]
  · intro rp run_id now h
    rw [mark_run_done, if_neg]
    simp [h]

/-- Witness for C6: a `RUNNING` document's id `20250101_000000` is reused;
a `DONE` document yields the fresh id; completion stamps the document. -/
theorem run_lifecycle_witness :
    load_or_create_run_id
      (.obj [("status", .str "RUNNING"), ("run_id", .str "20250101_000000")])
      "20250201_000000" = "20250101_000000" ∧
    load_or_create_run_id (.obj [("status", .str "DONE"), ("run_id", .str "x")])
      "20250201_000000" = "20250201_000000" ∧
    (∃ rp2, mark_run_done (.obj [("run_id", .str "r9"), ("status", .str "RUNNING")])
        "r9" "t9" = some rp2 ∧
      rp2.get "status" = some (.str "DONE") ∧
      rp2.get "finished_at" = some (.str "t9") ∧
      rp2.get "updated_at" = some (.str "t9")) := by
  refine ⟨?_, ?_, ?_⟩
  · exact run_lifecycle.1 _ _ (.str "20250101_000000") rfl rfl rfl
  · exact run_lifecycle.2.1 _ _ (Or.inl rfl)
  · exact run_lifecycle.2.2.1 [("run_id", .str "r9"), ("status", .str "RUNNING")]
      "r9" "t9" rfl

/-! ## C9: idempotent image download -/

/-- The temp path differs from the final path (it has the extra `.part`
suffix). -/
theorem img_tmp_ne_local (sku : String) : img_tmp_path sku ≠ img_local_path sku := by
  intro h
  have h2 := congrArg String.length h
  rw [img_tmp_path, String.length_append] at h2
  have h5 : (".part" : String).length = 5 := rfl
  omega

/-- C9: the image fetcher skips (no network call, reported not newly
written, filesystem untouched) when a non-empty file already exists for
the SKU; otherwise it downloads through the temp path: a 200 body of
positive size ends up renamed into place with the temp file gone, a
non-200 response returns before creating the temp file, and an exception
cleans the temp file up — all failure shapes report non-written. -/
theorem image_download_behavior (fs : FS) (fetch : ImgFetch) (url sku : String) :
    (∀ n, fs (img_local_path sku) = some n → 0 < n →
      (download_image_if_needed fs fetch url sku).networkCalled = false ∧
      (download_image_if_needed fs fetch url sku).written = false ∧
      (download_image_if_needed fs fetch url sku).fs = fs) ∧
    (∀ size, url ≠ "" → sku ≠ "" →
      (fs (img_local_path sku) = none ∨ fs (img_local_path sku) = some 0) →
      fetch = .resp 200 size → 0 < size →
      (download_image_if_needed fs fetch url sku).written = true ∧
      (download_image_if_needed fs fetch url sku).networkCalled = true ∧
      (download_image_if_needed fs fetch url sku).fs (img_local_path sku) = some size ∧
      (download_image_if_needed fs fetch url sku).fs (img_tmp_path sku) = none) ∧
    (∀ code size, url ≠ "" → sku ≠ "" →
      (fs (img_local_path sku) = none ∨ fs (img_local_path sku) = some 0) →
      fetch = .resp code size → code ≠ 200 →
      (download_image_if_needed fs fetch url sku).written = false ∧
      (download_image_if_needed fs fetch url sku).networkCalled = true ∧
      (download_image_if_needed fs fetch url sku).fs = fs) ∧
    (∀ tw ps, url ≠ "" → sku ≠ "" →
      (fs (img_local_path sku) = none ∨ fs (img_local_path sku) = some 0) →
      fetch = .exc tw ps →
      (download_image_if_needed fs fetch url sku).written = false ∧
      (download_image_if_needed fs fetch url sku).fs (img_tmp_path sku) = none) := by
  refine ⟨?_, ?_, ?_, ?_⟩
  · intro n hex hpos
    by_cases hguard : url = "" ∨ sku = ""
    · simp [download_image_if_needed, hguard]
    · simp [download_image_if_needed, hguard, hex, hpos]
  · intro size hurl hsku hmiss hfetch hpos
    have hguard : ¬(url = "" ∨ sku = "") := by
      rintro (h | h) <;> contradiction
    subst hfetch
    have hbody : download_image_if_needed fs (.resp 200 size) url sku =
        download_fetch fs (.resp 200 size) sku := by
      rcases hmiss with h | h <;> simp [download_image_if_needed, hguard, h]
    rw [hbody]
    have hsz : ¬size = 0 := by omega
    simp [download_fetch, hsz, fsSet, img_tmp_ne_local sku]
  · intro code size hurl hsku hmiss hfetch hcode
    have hguard : ¬(url = "" ∨ sku = "") := by
      rintro (h | h) <;> contradiction
    subst hfetch
    have hbody : download_image_if_needed fs (.resp code size) url sku =
        download_fetch fs (.resp code size) sku := by
      rcases hmiss with h | h <;> simp [download_image_if_needed, hguard, h]
    rw [hbody]
    simp [download_fetch, hcode]
  · intro tw ps hurl hsku hmiss hfetch
    have hguard : ¬(url = "" ∨ sku = "") := by
      rintro (h | h) <;> contradiction
    subst hfetch
    have hbody : download_image_if_needed fs (.exc tw ps) url sku =
        download_fetch fs (.exc tw ps) sku := by
      rcases hmiss with h | h <;> simp [download_image_if_needed, hguard, h]
    rw [hbody]
    simp [download_fetch, fsSet]

/-- Witness for C9: with `123.jpg` present and non-empty no network call
happens; with it absent, a 200 response of 5 bytes is written and the
temp file is gone. -/
theorem image_download_behavior_witness :
    ((download_image_if_needed
        (fun p => if p = img_local_path "123" then some 10 else none)
        (.resp 200 5) "http://x/i.jpg" "123").networkCalled = false ∧
      (download_image_if_needed
        (fun p => if p = img_local_path "123" then some 10 else none)
        (.resp 200 5) "http://x/i.jpg" "123").written = false ∧
      (download_image_if_needed
        (fun p => if p = img_local_path "123" then some 10 else none)
        (.resp 200 5) "http://x/i.jpg" "123").fs =
        (fun p => if p = img_local_path "123" then some 10 else none)) ∧
    ((download_image_if_needed (fun _ => none)
        (.resp 200 5) "http://x/i.jpg" "123").written = true ∧
      (download_image_if_needed (fun _ => none)
        (.resp 200 5) "http://x/i.jpg" "123").networkCalled = true ∧
      (download_image_if_needed (fun _ => none)
        (.resp 200 5) "http://x/i.jpg" "123").fs (img_local_path "123") = some 5 ∧
      (download_image_if_needed (fun _ => none)
        (.resp 200 5) "http://x/i.jpg" "123").fs (img_tmp_path "123") = none) :=
  ⟨(image_download_behavior _ _ "http://x/i.jpg" "123").1 10 (by simp) (by decide),
   (image_download_behavior _ _ "http://x/i.jpg" "123").2.1 5 (by decide) (by decide)
     (Or.inl rfl) rfl (by decide)⟩

/-! ## C4: retry policy -/

/-- Base case of the retry loop: no attempts left returns the previous
result unchanged. -/
theorem with_retries_go_zero (calls : Nat → Option Json × String) (u : Nat → ℚ × ℚ)
    (a : Nat) (prev : Option Json × String) :
    with_retries_go calls u 0 a prev = (prev, 0, []) := rfl

/-- Unfolding of one retry iteration. -/
theorem with_retries_go_succ (calls : Nat → Option Json × String) (u : Nat → ℚ × ℚ)
    (r a : Nat) (prev : Option Json × String) :
    with_retries_go calls u (r + 1) a prev =
      (if (calls a).2 = "SUCCESS" then ((calls a), 1, ([] : List ℚ))
       else
        ((with_retries_go calls u r (a + 1) (calls a)).1,
         (with_retries_go calls u r (a + 1) (calls a)).2.1 + 1,
         retry_delay a (calls a).2 (u a) ::
           (with_retries_go calls u r (a + 1) (calls a)).2.2)) := rfl

/-- The retry loop performs at most as many calls as it has attempts. -/
theorem with_retries_go_calls_le (calls : Nat → Option Json × String) (u : Nat → ℚ × ℚ) :
    ∀ r a prev, (with_retries_go calls u r a prev).2.1 ≤ r := by
  intro r
  induction r with
  | zero => intro a prev; simp [with_retries_go_zero]
  | succ r ih =>
      intro a prev
      rw [with_retries_go_succ]
      by_cases h : (calls a).2 = "SUCCESS"
      · simp [h]
      · simpa [h] using Nat.succ_le_succ (ih (a + 1) (calls a))

/-- Splitting a map over `range (n + 1)` into its head and a shifted
tail. -/
theorem map_range_succ_left {α : Type} (f : Nat → α) (n : Nat) :
    (List.range (n + 1)).map f = f 0 :: (List.range n).map (fun j => f (j + 1)) := by
  rw [List.range_succ_eq_map, List.map_cons, List.map_map]
  rfl

/-- When the i-th call (counting from offset `a`) is the first success,
the retry loop returns it after exactly `i + 1` calls, having slept once
per preceding failure. -/
theorem with_retries_go_first_success (calls : Nat → Option Json × String)
    (u : Nat → ℚ × ℚ) :
    ∀ i r a prev, i < r → (calls (a + i)).2 = "SUCCESS" →
      (∀ j, j < i → (calls (a + j)).2 ≠ "SUCCESS") →
      with_retries_go calls u r a prev =
        (calls (a + i), i + 1,
          (List.range i).map (fun j => retry_delay (a + j) (calls (a + j)).2 (u (a + j)))) := by
  intro i
  induction i with
  | zero =>
      intro r a prev hir hs _
      match r, hir with
      | r + 1, _ =>
        rw [with_retries_go_succ]
        simp only [Nat.add_zero] at hs
        simp [hs]
  | succ i ih =>
      intro r a prev hir hs hprev
      match r, hir with
      | r + 1, hir =>
        have hn : (calls a).2 ≠ "SUCCESS" := by
          simpa using hprev 0 (Nat.succ_pos i)
        have hrec := ih r (a + 1) (calls a) (Nat.lt_of_succ_lt_succ hir)
          (by have h : a + 1 + i = a + (i + 1) := by omega
              rw [h]; exact hs)
          (by intro j hj
              have h : a + 1 + j = a + (j + 1) := by omega
              rw [h]; exact hprev (j + 1) (Nat.succ_lt_succ hj))
        rw [with_retries_go_succ, if_neg hn, hrec]
        refine Prod.ext ?_ (Prod.ext ?_ ?_)
        · exact congrArg calls (by omega)
        · rfl
        · show retry_delay a (calls a).2 (u a) ::
            (List.range i).map
              (fun j => retry_delay (a + 1 + j) (calls (a + 1 + j)).2 (u (a + 1 + j))) = _
          rw [map_range_succ_left
            (fun j => retry_delay (a + j) (calls (a + j)).2 (u (a + j))) i]
          refine congrArg₂ List.cons (by simp) ?_
          refine List.map_congr_left ?_
          intro j hj
          have h : a + 1 + j = a + (j + 1) := by omega
          rw [h]

/-- When no call succeeds within the attempt budget, the retry loop
returns the last failure after using the whole budget, having slept after
every attempt. -/
theorem with_retries_go_exhaust (calls : Nat → Option Json × String)
    (u : Nat → ℚ × ℚ) :
    ∀ r a prev, r ≠ 0 → (∀ j, j < r → (calls (a + j)).2 ≠ "SUCCESS") →
      with_retries_go calls u r a prev =
        (calls (a + (r - 1)), r,
          (List.range r).map (fun j => retry_delay (a + j) (calls (a + j)).2 (u (a + j)))) := by
  intro r
  induction r with
  | zero => intro a prev h; exact absurd rfl h
  | succ r ih =>
      intro a prev _ hfail
      have hn : (calls a).2 ≠ "SUCCESS" := by
        simpa using hfail 0 (Nat.succ_pos r)
      rw [with_retries_go_succ, if_neg hn]
      cases r with
      | zero =>
          rw [with_retries_go_zero]
          rfl
      | succ r =>
          have hrec := ih (a + 1) (calls a) (Nat.succ_ne_zero r)
            (by intro j hj
                have h : a + 1 + j = a + (j + 1) := by omega
                rw [h]; exact hfail (j + 1) (Nat.succ_lt_succ hj))
          rw [hrec]
          refine Prod.ext ?_ (Prod.ext ?_ ?_)
          · exact congrArg calls (by omega)
          · rfl
          · show retry_delay a (calls a).2 (u a) ::
              (List.range (r + 1)).map
                (fun j => retry_delay (a + 1 + j) (calls (a + 1 + j)).2 (u (a + 1 + j))) = _
            rw [map_range_succ_left
              (fun j => retry_delay (a + j) (calls (a + j)).2 (u (a + j))) (r + 1)]
            refine congrArg₂ List.cons (by simp) ?_
            refine List.map_congr_left ?_
            intro j hj
            have h : a + 1 + j = a + (j + 1) := by omega
            rw [h]

/-- C4: `with_retries` invokes the raw request at most `MAX_RETRIES`
times; it returns the first `SUCCESS` result immediately (after `i + 1`
calls when attempt `i` is the first success), sleeping
`BACKOFF_BASE_S * (1 + attempt) * uniform(0.8, 1.6)` seconds after each
failed attempt, raised to an additional floor of `10 + uniform(0, 5)`
(between 10 and 15 seconds) after a `BLOCKED_403`; and on exhausting all
attempts it returns the last failure's `(payload, status)` to the caller
— it is a total function, so no exception escapes it. -/
theorem with_retries_policy (calls : Nat → Option Json × String) (u : Nat → ℚ × ℚ) :
    (with_retries calls u).2.1 ≤ MAX_RETRIES ∧
    (∀ i, i < MAX_RETRIES → (calls i).2 = "SUCCESS" →
      (∀ j, j < i → (calls j).2 ≠ "SUCCESS") →
      with_retries calls u =
        (calls i, i + 1,
          (List.range i).map (fun j => retry_delay j (calls j).2 (u j)))) ∧
    ((∀ j, j < MAX_RETRIES → (calls j).2 ≠ "SUCCESS") →
      with_retries calls u =
        (calls (MAX_RETRIES - 1), MAX_RETRIES,
          (List.range MAX_RETRIES).map (fun j => retry_delay j (calls j).2 (u j)))) ∧
    (∀ attempt status uu, (0.8 : ℚ) ≤ uu.1 → uu.1 ≤ (1.6 : ℚ) →
      (0 : ℚ) ≤ uu.2 → uu.2 ≤ (5 : ℚ) →
      (status ≠ "BLOCKED_403" →
        retry_delay attempt status uu = BACKOFF_BASE_S * (1 + (attempt : ℚ)) * uu.1) ∧
      (status = "BLOCKED_403" →
        retry_delay attempt status uu =
          max (BACKOFF_BASE_S * (1 + (attempt : ℚ)) * uu.1) (10 + uu.2) ∧
        (10 : ℚ) ≤ retry_delay attempt status uu ∧
        (10 : ℚ) ≤ 10 + uu.2 ∧ 10 + uu.2 ≤ (15 : ℚ))) := by
  refine ⟨with_retries_go_calls_le calls u MAX_RETRIES 0 _, ?_, ?_, ?_⟩
  · intro i hi hs hprev
    have h := with_retries_go_first_success calls u i MAX_RETRIES 0 (none, "UNKNOWN") hi
      (by simpa using hs) (by intro j hj; simpa using hprev j hj)
    simpa using h
  · intro hfail
    have h := with_retries_go_exhaust calls u MAX_RETRIES 0 (none, "UNKNOWN")
      (by decide) (by intro j hj; simpa using hfail j hj)
    simpa using h
  · intro attempt status uu h08 h16 h0 h5
    constructor
    · intro hne
      simp [retry_delay, hne]
    · intro heq
      subst heq
      refine ⟨by simp [retry_delay], ?_, by linarith, by linarith⟩
      have : (10 : ℚ) ≤ 10 + uu.2 := by linarith
      calc (10 : ℚ) ≤ 10 + uu.2 := this
        _ ≤ max (BACKOFF_BASE_S * (1 + (attempt : ℚ)) * uu.1) (10 + uu.2) := le_max_right _ _
        _ = retry_delay attempt "BLOCKED_403" uu := by simp [retry_delay]

/-- Witness for C4: two timeouts then a success return the success after
three calls with sleeps 1 and 2 seconds; four straight timeouts return
the last timeout after four calls. -/
theorem with_retries_policy_witness :
    with_retries (fun n => if n < 2 then (none, "TIMEOUT") else (some (.obj []), "SUCCESS"))
      (fun _ => (1, 1)) = ((some (.obj []), "SUCCESS"), 3, [1, 2]) ∧
    with_retries (fun _ => (none, "TIMEOUT")) (fun _ => (1, 1)) =
      ((none, "TIMEOUT"), 4, [1, 2, 3, 4]) := by
  constructor
  · have h := (with_retries_policy
      (fun n => if n < 2 then (none, "TIMEOUT") else (some (.obj []), "SUCCESS"))
      (fun _ => (1, 1))).2.1 2 (by decide) (by decide)
      (by intro j hj; interval_cases j <;> decide)
    rw [h, show List.range 2 = [0, 1] from rfl]
    norm_num [retry_delay, BACKOFF_BASE_S]
    decide
  · have h := (with_retries_policy (fun _ => (none, "TIMEOUT")) (fun _ => (1, 1))).2.2.1
      (by intro j hj; decide)
    rw [h, show List.range MAX_RETRIES = [0, 1, 2, 3] from rfl]
    norm_num [retry_delay, BACKOFF_BASE_S, MAX_RETRIES]
    decide

/-! ## C7: brand list loading -/

/-- Dropping a prefix twice is the same as dropping it once. -/
theorem dropWhile_idem (p : Char → Bool) (l : List Char) :
    (l.dropWhile p).dropWhile p = l.dropWhile p := by
  cases h : l.dropWhile p with
  | nil => rfl
  | cons a t =>
      have ha : ¬ p a := by
        have h2 := List.head?_dropWhile_not p l
        rw [h] at h2
        simpa using h2
      simp [List.dropWhile_cons, ha]

/-- Right trimming is idempotent. -/
theorem trimR_idem (l : List Char) : trimR (trimR l) = trimR l := by
  unfold trimR
  rw [List.reverse_reverse, dropWhile_idem]

/-- Right trimming keeps a non-whitespace head in place. -/
theorem trimR_cons_head (a : Char) (m : List Char) (ha : pyWs a = false) :
    ∃ t, trimR (a :: m) = a :: t := by
  unfold trimR
  rw [List.reverse_cons, List.dropWhile_append]
  by_cases h : (m.reverse.dropWhile pyWs).isEmpty
  · refine ⟨[], ?_⟩
    simp [h, List.dropWhile_cons, ha]
  · refine ⟨(m.reverse.dropWhile pyWs).reverse, ?_⟩
    simp [h]

/-- Left trimming fixes a list whose head is not whitespace. -/
theorem trimL_cons_of_not_ws (a : Char) (t : List Char) (ha : pyWs a = false) :
    trimL (a :: t) = a :: t := by
  simp [trimL, List.dropWhile_cons, ha]

/-- Python `strip` is idempotent. -/
theorem pyStrip_idem (s : String) : pyStrip (pyStrip s) = pyStrip s := by
  show String.mk (trimR (trimL (trimR (trimL s.data)))) = String.mk (trimR (trimL s.data))
  cases hm : trimL s.data with
  | nil =>
      simp [trimR, trimL]
  | cons a m =>
      have ha : pyWs a = false := by
        have h2 := List.head?_dropWhile_not pyWs s.data
        rw [show List.dropWhile pyWs s.data = a :: m from hm] at h2
        simpa using h2
      obtain ⟨t, ht⟩ := trimR_cons_head a m ha
      rw [ht, trimL_cons_of_not_ws a t ha, ← ht, trimR_idem]

/-- Every loaded brand value is a non-empty, already-stripped string (the
pipeline drops missing cells, strips, and filters out blanks). -/
theorem mem_clean_brand_values (vals : List (Option String)) (b : String)
    (hb : b ∈ clean_brand_values vals) : b ≠ "" ∧ pyStrip b = b := by
  unfold clean_brand_values at hb
  obtain ⟨hmap, hne⟩ := List.mem_filter.mp hb
  constructor
  · simpa using hne
  · obtain ⟨a, _, rfl⟩ := List.mem_map.mp hmap
    exact pyStrip_idem a

/-- Unfolding of the dedup fold on a cons cell. -/
theorem dedupe_go_cons (seen : List String) (b : String) (rest : List String) :
    dedupe_brands_go seen (b :: rest) =
      if norm_key b ∈ seen then dedupe_brands_go seen rest
      else b :: dedupe_brands_go (norm_key b :: seen) rest := rfl

/-- The dedup fold only ever removes elements. -/
theorem dedupe_go_sublist (seen : List String) (l : List String) :
    (dedupe_brands_go seen l).Sublist l := by
  induction l generalizing seen with
  | nil => simp [dedupe_brands_go]
  | cons b rest ih =>
      rw [dedupe_go_cons]
      by_cases h : norm_key b ∈ seen
      · rw [if_pos h]
        exact (ih seen).cons b
      · rw [if_neg h]
        exact (ih _).cons₂ b

/-- The dedup fold produces pairwise-distinct normalised keys, none of
them previously seen. -/
theorem dedupe_go_nodup_disjoint (l : List String) : ∀ seen,
    ((dedupe_brands_go seen l).map norm_key).Nodup ∧
    ∀ k ∈ (dedupe_brands_go seen l).map norm_key, k ∉ seen := by
  induction l with
  | nil => intro seen; simp [dedupe_brands_go]
  | cons b rest ih =>
      intro seen
      rw [dedupe_go_cons]
      by_cases h : norm_key b ∈ seen
      · rw [if_pos h]
        exact ih seen
      · rw [if_neg h]
        obtain ⟨hnd, hdis⟩ := ih (norm_key b :: seen)
        constructor
        · simp only [List.map_cons, List.nodup_cons]
          refine ⟨fun hmem => (hdis _ hmem) (List.mem_cons_self _ _), hnd⟩
        · intro k hk
          simp only [List.map_cons, List.mem_cons] at hk
          rcases hk with hk | hk
          · subst hk
            exact h
          · exact fun hks => (hdis k hk) (List.mem_cons_of_mem _ hks)

/-- Every input key either was already seen or survives in the output. -/
theorem dedupe_go_coverage (l : List String) : ∀ seen, ∀ b ∈ l,
    norm_key b ∈ seen ∨ norm_key b ∈ (dedupe_brands_go seen l).map norm_key := by
  induction l with
  | nil => simp
  | cons c rest ih =>
      intro seen b hb
      rw [dedupe_go_cons]
      by_cases h : norm_key c ∈ seen
      · rw [if_pos h]
        rcases List.mem_cons.mp hb with rfl | hb
        · exact Or.inl h
        · exact ih seen b hb
      · rw [if_neg h]
        rcases List.mem_cons.mp hb with rfl | hb
        · right
          simp
        · rcases ih (norm_key c :: seen) b hb with hmem | hmem
          · rcases List.mem_cons.mp hmem with heq | hs
            · right
              simp [heq]
            · exact Or.inl hs
          · right
            simp [hmem]

/-- Each surviving element is the first input element carrying its
normalised key (first occurrence wins, original casing kept). -/
theorem dedupe_go_first (l : List String) : ∀ seen, ∀ b ∈ dedupe_brands_go seen l,
    l.find? (fun x => norm_key x == norm_key b) = some b := by
  induction l with
  | nil => simp [dedupe_brands_go]
  | cons c rest ih =>
      intro seen b hb
      rw [dedupe_go_cons] at hb
      by_cases h : norm_key c ∈ seen
      · rw [if_pos h] at hb
        have hbk : norm_key b ∉ seen :=
          (dedupe_go_nodup_disjoint rest seen).2 _ (List.mem_map_of_mem _ hb)
        have hne : ¬ (norm_key c == norm_key b) = true := by
          simp only [beq_iff_eq]
          intro heq
          exact hbk (heq ▸ h)
        have hstep : List.find? (fun x => norm_key x == norm_key b) (c :: rest) =
            List.find? (fun x => norm_key x == norm_key b) rest :=
          List.find?_cons_of_neg rest hne
        exact hstep.trans (ih seen b hb)
      · rw [if_neg h] at hb
        rcases List.mem_cons.mp hb with rfl | hb
        · rw [List.find?_cons_of_pos _ (by simp)]
        · have hbk : norm_key b ∉ norm_key c :: seen :=
            (dedupe_go_nodup_disjoint rest _).2 _ (List.mem_map_of_mem _ hb)
          have hne : ¬ (norm_key c == norm_key b) = true := by
            simp only [beq_iff_eq]
            intro heq
            exact hbk (by simp [heq])
          have hstep : List.find? (fun x => norm_key x == norm_key b) (c :: rest) =
              List.find? (fun x => norm_key x == norm_key b) rest :=
            List.find?_cons_of_neg rest hne
          exact hstep.trans (ih _ b hb)

/-- The dedup fold is the identity on lists whose keys are already
pairwise distinct and unseen. -/
theorem dedupe_go_id (l : List String) : ∀ seen, ((l.map norm_key).Nodup) →
    (∀ x ∈ l, norm_key x ∉ seen) → dedupe_brands_go seen l = l := by
  induction l with
  | nil => intro seen _ _; rfl
  | cons c rest ih =>
      intro seen hnd hdis
      have hnd2 : (norm_key c ∉ rest.map norm_key) ∧ (rest.map norm_key).Nodup := by
        rw [List.map_cons, List.nodup_cons] at hnd
        exact hnd
      rw [dedupe_go_cons, if_neg (hdis c (List.mem_cons_self c rest))]
      congr 1
      refine ih _ hnd2.2 ?_
      intro x hx hmem
      rcases List.mem_cons.mp hmem with heq | hs
      · exact hnd2.1 (heq ▸ List.mem_map_of_mem _ hx)
      · exact hdis x (List.mem_cons_of_mem _ hx) hs

/-- Re-loading an already-cleaned list leaves it unchanged. -/
theorem clean_brand_values_fixed (out : List String)
    (h : ∀ b ∈ out, b ≠ "" ∧ pyStrip b = b) :
    clean_brand_values (out.map some) = out := by
  unfold clean_brand_values
  have h1 : List.filterMap id (out.map some) = out := by simp
  rw [h1]
  have h2 : out.map pyStrip = out := by
    conv_rhs => rw [← List.map_id out]
    exact List.map_congr_left (fun b hb => (h b hb).2)
  rw [h2]
  refine List.filter_eq_self.mpr ?_
  intro b hb
  simpa using (h b hb).1

/-- C7: brand loading selects the column named by the first recognised
candidate (`select_brand_column`, falling back to the first column),
drops blank and missing values, deduplicates case/whitespace-insensitively
(`norm_key`) keeping the first occurrence with its original casing and
first-seen order (the output is a sublist of the cleaned input, its keys
are pairwise distinct and cover the input, and each survivor is the first
cleaned value with its key), and loading the resulting list again returns
it unchanged. -/
theorem load_brands_spec (df : Frame) (col : List (Option String)) (out : List String)
    (hsel : select_brand_column df = some col)
    (hout : out = dedupe_brands_go [] (clean_brand_values col)) :
    load_brands_from_csv df = some out ∧
    out.Sublist (clean_brand_values col) ∧
    (out.map norm_key).Nodup ∧
    (∀ b ∈ clean_brand_values col, norm_key b ∈ out.map norm_key) ∧
    (∀ b ∈ out, (clean_brand_values col).find? (fun x => norm_key x == norm_key b) = some b) ∧
    (∀ b ∈ out, b ≠ "" ∧ pyStrip b = b) ∧
    load_brands_from_csv [("brand", out.map some)] = some out := by
  subst hout
  refine ⟨?_, dedupe_go_sublist [] _, (dedupe_go_nodup_disjoint _ []).1, ?_,
    dedupe_go_first _ [], ?_, ?_⟩
  · unfold load_brands_from_csv
    rw [hsel]
    rfl
  · intro b hb
    rcases dedupe_go_coverage _ [] b hb with h | h
    · cases h
    · exact h
  · intro b hb
    exact mem_clean_brand_values col b ((dedupe_go_sublist [] _).subset hb)
  · have hmem : ∀ b ∈ dedupe_brands_go [] (clean_brand_values col), b ≠ "" ∧ pyStrip b = b :=
      fun b hb => mem_clean_brand_values col b ((dedupe_go_sublist [] _).subset hb)
    show load_brands_from_csv [("brand",
      (dedupe_brands_go [] (clean_brand_values col)).map some)] = _
    unfold load_brands_from_csv
    have hsel2 : select_brand_column [("brand",
        (dedupe_brands_go [] (clean_brand_values col)).map some)] =
        some ((dedupe_brands_go [] (clean_brand_values col)).map some) := rfl
    rw [hsel2]
    refine congrArg some ?_
    show dedupe_brands_go []
        (clean_brand_values ((dedupe_brands_go [] (clean_brand_values col)).map some)) =
      dedupe_brands_go [] (clean_brand_values col)
    rw [clean_brand_values_fixed _ hmem,
      dedupe_go_id _ [] (dedupe_go_nodup_disjoint _ []).1 (by intro x hx; simp)]

/-- Witness for C7: the demo frame picks the `brand` column over the
earlier `name` column, drops the missing and blank cells, deduplicates
`Acme`/`ACME` (case) while keeping `acme  Co` (its collapsed key differs)
and ` Beta` (stripped), and reloading the result is the identity. -/
theorem load_brands_spec_witness :
    load_brands_from_csv c7df = some c7out ∧
    c7out = ["Acme", "acme  Co", "Beta"] ∧
    (c7out.map norm_key).Nodup ∧
    load_brands_from_csv [("brand", c7out.map some)] = some c7out := by
  have h := load_brands_spec c7df c7col c7out rfl rfl
  exact ⟨h.1, rfl, h.2.2.1, h.2.2.2.2.2.2⟩

/-! ## Loop unfolding equations -/

/-- The loop returns nothing on empty fuel. -/
theorem brandLoop_zero (responses : Nat → Option Json × String) (brand run_id now : String)
    (idx : Nat) (st : LoopState) :
    brandLoop responses brand run_id now 0 idx st = none := rfl

/-- One unfolding of the fueled loop. -/
theorem brandLoop_succ (responses : Nat → Option Json × String) (brand run_id now : String)
    (fuel idx : Nat) (st : LoopState) :
    brandLoop responses brand run_id now (fuel + 1) idx st =
      match brandStep brand run_id now (responses idx) st with
      | .inl ex => some ex
      | .inr st2 => brandLoop responses brand run_id now fuel (idx + 1) st2 := rfl

/-- One unfolding of the page item fold. -/
theorem process_items_cons (brand run_id now : String) (st : LoopState) (it : Json)
    (items : List Json) :
    process_items brand run_id now st (it :: items) =
      process_items brand run_id now (process_item brand run_id now st it) items := rfl

/-- Item processing never moves the paging cursor. -/
theorem process_item_cursor (brand run_id now : String) (st : LoopState) (it : Json) :
    (process_item brand run_id now st it).skip = st.skip ∧
    (process_item brand run_id now st it).total_expected = st.total_expected ∧
    (process_item brand run_id now st it).page_count = st.page_count := by
  unfold process_item
  by_cases h1 : extract_sku_from_item it = ""
  · simp [h1]
  · by_cases h2 : extract_sku_from_item it ∈ st.seen_skus
    · simp [h1, h2]
    · simp [h1, h2]

/-- Page processing never moves the paging cursor. -/
theorem process_items_cursor (brand run_id now : String) (items : List Json) :
    ∀ st : LoopState,
    (process_items brand run_id now st items).skip = st.skip ∧
    (process_items brand run_id now st items).total_expected = st.total_expected ∧
    (process_items brand run_id now st items).page_count = st.page_count := by
  induction items with
  | nil => intro st; exact ⟨rfl, rfl, rfl⟩
  | cons it rest ih =>
      intro st
      rw [process_items_cons]
      obtain ⟨h1, h2, h3⟩ := ih (process_item brand run_id now st it)
      obtain ⟨g1, g2, g3⟩ := process_item_cursor brand run_id now st it
      exact ⟨h1.trans g1, h2.trans g2, h3.trans g3⟩

/-! ## C1: cross-run SKU deduplication -/

/-- Processing one item preserves the row/seen-set invariant. -/
theorem seenInv_process_item (seed : List String) (brand run_id now : String)
    (st : LoopState) (it : Json) (h : SeenInv seed st) :
    SeenInv seed (process_item brand run_id now st it) := by
  obtain ⟨hnd, hsub, hseed, hdis⟩ := h
  unfold process_item
  by_cases h1 : extract_sku_from_item it = ""
  · simpa [h1] using ⟨hnd, hsub, hseed, hdis⟩
  · by_cases h2 : extract_sku_from_item it ∈ st.seen_skus
    · simp only [if_neg h1, if_pos h2]
      exact ⟨hnd, hsub, hseed, hdis⟩
    · simp only [if_neg h1, if_neg h2]
      refine ⟨?_, ?_, ?_, ?_⟩
      · rw [List.map_append]
        rw [List.nodup_append]
        refine ⟨hnd, List.nodup_singleton _, ?_⟩
        intro a ha hb
        simp only [List.map_cons, List.map_nil, List.mem_cons, List.not_mem_nil,
          or_false] at hb
        subst hb
        obtain ⟨r, hr, hrsku⟩ := List.mem_map.mp ha
        have hx : (item_to_row it brand run_id now).sku ∈ st.seen_skus :=
          hrsku ▸ hsub r hr
        exact h2 hx
      · intro r hr
        rcases List.mem_append.mp hr with hr | hr
        · exact List.mem_cons_of_mem _ (hsub r hr)
        · simp only [List.mem_singleton] at hr
          subst hr
          exact List.mem_cons_self _ _
      · intro s hs
        exact List.mem_cons_of_mem _ (hseed s hs)
      · intro r hr
        rcases List.mem_append.mp hr with hr | hr
        · exact hdis r hr
        · simp only [List.mem_singleton] at hr
          subst hr
          intro hseedmem
          exact h2 (hseed _ hseedmem)

/-- Processing a page preserves the row/seen-set invariant. -/
theorem seenInv_process_items (seed : List String) (brand run_id now : String)
    (items : List Json) : ∀ st : LoopState, SeenInv seed st →
    SeenInv seed (process_items brand run_id now st items) := by
  induction items with
  | nil => intro st h; exact h
  | cons it rest ih =>
      intro st h
      rw [process_items_cons]
      exact ih _ (seenInv_process_item seed brand run_id now st it h)

/-- One loop iteration preserves the row/seen-set invariant, whether it
exits or continues. -/
theorem seenInv_step (seed : List String) (brand run_id now : String)
    (resp : Option Json × String) (st : LoopState) (h : SeenInv seed st) :
    (∀ ex, brandStep brand run_id now resp st = .inl ex → SeenInv seed ex.st) ∧
    (∀ st2, brandStep brand run_id now resp st = .inr st2 → SeenInv seed st2) := by
  obtain ⟨p?, status⟩ := resp
  have hadv : ∀ payload, SeenInv seed (advanceState brand run_id now st payload) :=
    fun payload =>
      seenInv_process_items seed brand run_id now (extract_items payload) _ h
  constructor
  · intro ex hex
    cases p? with
    | none =>
        simp only [brandStep] at hex
        cases hex
        exact h
    | some payload =>
        simp only [brandStep] at hex
        repeat' split at hex
        all_goals cases hex
        all_goals first
          | exact h
          | exact hadv payload
  · intro st2 hst2
    cases p? with
    | none =>
        simp only [brandStep] at hst2
        cases hst2
    | some payload =>
        simp only [brandStep] at hst2
        repeat' split at hst2
        all_goals cases hst2
        all_goals exact hadv payload

/-- The whole loop preserves the row/seen-set invariant. -/
theorem seenInv_loop (seed : List String) (responses : Nat → Option Json × String)
    (brand run_id now : String) : ∀ fuel idx st ex, SeenInv seed st →
    brandLoop responses brand run_id now fuel idx st = some ex → SeenInv seed ex.st := by
  intro fuel
  induction fuel with
  | zero =>
      intro idx st ex h hrun
      rw [brandLoop_zero] at hrun
      cases hrun
  | succ fuel ih =>
      intro idx st ex h hrun
      rw [brandLoop_succ] at hrun
      cases hstep : brandStep brand run_id now (responses idx) st with
      | inl ex2 =>
          rw [hstep] at hrun
          cases hrun
          exact (seenInv_step seed brand run_id now _ st h).1 _ hstep
      | inr st2 =>
          rw [hstep] at hrun
          exact ih (idx + 1) st2 ex
            ((seenInv_step seed brand run_id now _ st h).2 st2 hstep) hrun

/-- C1: in a run whose seen-set is seeded from the persisted SKU index
(`seen_skus = set(si.keys())`) and whose row buffer starts empty, the
rows the pagination loop appends carry pairwise-distinct SKUs — a SKU is
appended at most once, the first observation winning — and no row ever
carries a seeded SKU, so dedup spans prior runs.  Moreover an item whose
SKU is already in the seen-set changes only the SKU index: its rows and
seen-set are untouched and its index is exactly `update_sku_index`. -/
theorem sku_rows_unique (responses : Nat → Option Json × String)
    (brand run_id now : String) (fuel idx : Nat) (si0 : SkuIndex) (st0 : LoopState)
    (ex : BrandExit)
    (hseed : st0.seen_skus = si0.map Prod.fst)
    (hrows : st0.rows = [])
    (hrun : brandLoop responses brand run_id now fuel idx st0 = some ex) :
    ((ex.st.rows.map Row.sku).Nodup ∧
      ∀ r ∈ ex.st.rows, r.sku ∉ si0.map Prod.fst) ∧
    (∀ st it, extract_sku_from_item it ∈ st.seen_skus →
      (process_item brand run_id now st it).rows = st.rows ∧
      (process_item brand run_id now st it).seen_skus = st.seen_skus ∧
      (process_item brand run_id now st it).si =
        update_sku_index st.si (extract_sku_from_item it) brand now) := by
  constructor
  · have hinv0 : SeenInv (si0.map Prod.fst) st0 := by
      refine ⟨?_, ?_, ?_, ?_⟩
      · rw [hrows]
        exact List.nodup_nil
      · intro r hr
        rw [hrows] at hr
        cases hr
      · intro s hs
        rw [hseed]
        exact hs
      · intro r hr
        rw [hrows] at hr
        cases hr
    have hinv := seenInv_loop (si0.map Prod.fst) responses brand run_id now fuel idx st0
      ex hinv0 hrun
    exact ⟨hinv.1, hinv.2.2.2⟩
  · intro st it hmem
    by_cases h1 : extract_sku_from_item it = ""
    · refine ⟨?_, ?_, ?_⟩ <;> simp [process_item, update_sku_index, h1]
    · refine ⟨?_, ?_, ?_⟩ <;> simp [process_item, h1, hmem]

/-- Witness for C1: with SKU `S1` seeded from a previous run's index, a
page carrying `S1` and the novel `S2` appends only the `S2` row. -/
theorem sku_rows_unique_witness :
    (((c1ex.st.rows.map Row.sku).Nodup ∧
      ∀ r ∈ c1ex.st.rows, r.sku ∉ c1si.map Prod.fst) ∧
    (∀ st it, extract_sku_from_item it ∈ st.seen_skus →
      (process_item "B" "r1" "t1" st it).rows = st.rows ∧
      (process_item "B" "r1" "t1" st it).seen_skus = st.seen_skus ∧
      (process_item "B" "r1" "t1" st it).si =
        update_sku_index st.si (extract_sku_from_item it) "B" "t1")) ∧
    c1ex.st.rows.map Row.sku = ["S2"] :=
  ⟨sku_rows_unique c1resp "B" "r1" "t1" 1 0 c1si c1st c1ex rfl rfl rfl, rfl⟩

/-! ## C2: the two-page Acme scenario -/

/-- C2 counterexample: after a full page of 50 and a short page of 12 the
brand is done after 2 fetches with 62 rows, but the offset checkpoint is
written as 100, not 62 — the loop advances `skip` by the full page size
`TAKE` on every page, regardless of how many items the page carried. -/
theorem acme_two_page_counterexample :
    c2run = some c2ex ∧ c2ex.st.page_count = 2 ∧ c2ex.doc.skip = 100 ∧
    ¬(c2ex.doc.skip = 62) :=
  ⟨rfl, rfl, rfl,
    fun h => absurd ((rfl : c2ex.doc.skip = 100).symm.trans h) (by decide)⟩

/-- C2 (amended): for the brand whose first page has exactly 50 items
(the page size, with total 62) and whose second page has 12, the loop
exits via the short-page condition after exactly 2 fetches, marks the
brand done, leaves the offset checkpoint at 100 (the offset advances by
the full page size per fetch), and appends 62 rows since all SKUs are
novel. -/
theorem acme_two_page_amended :
    c2run = some c2ex ∧ c2ex.kind = .shortPage ∧ c2ex.st.page_count = 2 ∧
    c2ex.doc.done = true ∧ c2ex.doc.skip = 100 ∧ c2ex.st.rows.length = 62 :=
  ⟨rfl, rfl, rfl, rfl, rfl, rfl⟩

/-! ## C3: termination of the per-brand pagination loop -/

/-- The learned total survives page processing into the advanced state. -/
theorem advanceState_total (brand run_id now : String) (st : LoopState) (payload : Json) :
    (advanceState brand run_id now st payload).total_expected = pageTotal st payload := by
  show (process_items brand run_id now { st with total_expected := pageTotal st payload }
    (extract_items payload)).total_expected = pageTotal st payload
  exact (process_items_cursor brand run_id now (extract_items payload) _).2.1

/-- The advanced state's offset is the old offset plus the page size. -/
theorem advanceState_skip (brand run_id now : String) (st : LoopState) (payload : Json) :
    (advanceState brand run_id now st payload).skip = st.skip + TAKE := by
  show (process_items brand run_id now { st with total_expected := pageTotal st payload }
    (extract_items payload)).skip + TAKE = st.skip + TAKE
  exact congrArg (fun x => x + TAKE)
    (process_items_cursor brand run_id now (extract_items payload) _).1

/-- Anatomy of a continuing loop iteration: the fetch succeeded with a
truthy payload, the page was neither empty nor short, the state advanced
by one full page, and when a total is known the new offset is still below
it (otherwise the iteration would have exited). -/
theorem brandStep_inr_anatomy (brand run_id now : String) (resp : Option Json × String)
    (st st2 : LoopState) (h : brandStep brand run_id now resp st = .inr st2) :
    ∃ payload, resp.1 = some payload ∧
      st2 = advanceState brand run_id now st payload ∧
      ¬respFails resp ∧ ¬((respItems resp).length < TAKE) ∧
      st2.total_expected = pageTotal st payload ∧
      st2.skip = st.skip + TAKE ∧
      (∀ t, pageTotal st payload = some t → (st2.skip : Int) < t) := by
  obtain ⟨p?, status⟩ := resp
  cases p? with
  | none =>
      simp only [brandStep] at h
      cases h
  | some payload =>
      simp only [brandStep] at h
      by_cases hc : ¬payload.truthy ∨ status ≠ "SUCCESS"
      · rw [if_pos hc] at h
        cases h
      · rw [if_neg hc] at h
        have hnf : ¬respFails (some payload, status) := by
          intro hf
          rcases hf with hf | hf
          · exact hc (Or.inl (by simp [hf]))
          · exact hc (Or.inr hf)
        by_cases hemp : (extract_items payload).isEmpty
        · rw [if_pos hemp] at h
          cases h
        · rw [if_neg hemp] at h
          by_cases hshort : (extract_items payload).length < TAKE
          · rw [if_pos hshort] at h
            cases h
          · rw [if_neg hshort] at h
            split at h
            · rename_i t htot
              split at h
              · cases h
              · rename_i hle
                cases h
                refine ⟨payload, rfl, rfl, hnf, hshort,
                  advanceState_total brand run_id now st payload,
                  advanceState_skip brand run_id now st payload, ?_⟩
                intro t2 ht2
                rw [htot] at ht2
                cases ht2
                exact lt_of_not_le hle
            · rename_i htot
              cases h
              refine ⟨payload, rfl, rfl, hnf, hshort,
                advanceState_total brand run_id now st payload,
                advanceState_skip brand run_id now st payload, ?_⟩
              intro t2 ht2
              rw [htot] at ht2
              cases ht2

/-- An exiting iteration implies the fetched response was a trigger, or
the total was already known. -/
theorem brandStep_inl_trigger (brand run_id now : String) (resp : Option Json × String)
    (st : LoopState) (ex : BrandExit) (h : brandStep brand run_id now resp st = .inl ex) :
    respTrigger resp ∨ st.total_expected ≠ none := by
  obtain ⟨p?, status⟩ := resp
  cases p? with
  | none => exact Or.inl (Or.inl trivial)
  | some payload =>
      simp only [brandStep] at h
      by_cases hc : ¬payload.truthy ∨ status ≠ "SUCCESS"
      · refine Or.inl (Or.inl ?_)
        rcases hc with hc | hc
        · exact Or.inl (by simpa using hc)
        · exact Or.inr hc
      · rw [if_neg hc] at h
        by_cases hemp : (extract_items payload).isEmpty
        · refine Or.inl (Or.inr (Or.inl ?_))
          show (respItems (some payload, status)).length < TAKE
          have hnil : extract_items payload = [] := List.isEmpty_iff.mp hemp
          show (extract_items payload).length < TAKE
          rw [hnil]
          decide
        · rw [if_neg hemp] at h
          by_cases hshort : (extract_items payload).length < TAKE
          · exact Or.inl (Or.inr (Or.inl hshort))
          · rw [if_neg hshort] at h
            cases htot : pageTotal st payload with
            | none =>
                rw [htot] at h
                cases h
            | some t =>
                cases hst : st.total_expected with
                | some t0 => exact Or.inr (by simp [hst])
                | none =>
                    refine Or.inl (Or.inr (Or.inr ?_))
                    show (some payload).bind extract_total ≠ none
                    have hpt : pageTotal st payload = extract_total payload := by
                      simp [pageTotal, hst]
                    have he : extract_total payload = some t := hpt.symm.trans htot
                    simp [he]

/-- Every exit marks the brand done except a fetch failure, which leaves
it not done. -/
theorem brandStep_inl_done (brand run_id now : String) (resp : Option Json × String)
    (st : LoopState) (ex : BrandExit) (h : brandStep brand run_id now resp st = .inl ex) :
    (ex.kind = .fetchFail → ex.doc.done = false) ∧
    (ex.kind ≠ .fetchFail → ex.doc.done = true) := by
  obtain ⟨p?, status⟩ := resp
  cases p? with
  | none =>
      simp only [brandStep] at h
      cases h
      exact ⟨fun _ => rfl, fun hk => absurd rfl hk⟩
  | some payload =>
      simp only [brandStep] at h
      repeat' split at h
      all_goals cases h
      all_goals first
        | exact ⟨fun _ => rfl, fun hk => absurd rfl hk⟩
        | exact ⟨fun hk => ExitKind.noConfusion hk, fun _ => rfl⟩

/-- An exiting loop implies a trigger in the remaining response stream,
unless the total was known at entry. -/
theorem brandLoop_exit_trigger (responses : Nat → Option Json × String)
    (brand run_id now : String) : ∀ fuel idx st ex,
    brandLoop responses brand run_id now fuel idx st = some ex →
    st.total_expected ≠ none ∨ ∃ n, idx ≤ n ∧ respTrigger (responses n) := by
  intro fuel
  induction fuel with
  | zero =>
      intro idx st ex h
      rw [brandLoop_zero] at h
      cases h
  | succ fuel ih =>
      intro idx st ex h
      rw [brandLoop_succ] at h
      cases hstep : brandStep brand run_id now (responses idx) st with
      | inl ex2 =>
          rcases brandStep_inl_trigger brand run_id now (responses idx) st ex2 hstep with
            htrig | htot
          · exact Or.inr ⟨idx, Nat.le_refl idx, htrig⟩
          · exact Or.inl htot
      | inr st2 =>
          rw [hstep] at h
          rcases ih (idx + 1) st2 ex h with htot2 | ⟨n, hn, htrig⟩
          · obtain ⟨payload, hp, _, _, _, htotal, _, _⟩ :=
              brandStep_inr_anatomy brand run_id now (responses idx) st st2 hstep
            rw [htotal] at htot2
            by_cases hst : st.total_expected = none
            · refine Or.inr ⟨idx, Nat.le_refl idx, Or.inr (Or.inr ?_)⟩
              rw [hp]
              have hpt : pageTotal st payload = extract_total payload := by
                simp [pageTotal, hst]
              rw [hpt] at htot2
              simpa using htot2
            · exact Or.inl hst
          · exact Or.inr ⟨n, Nat.le_of_succ_le hn, htrig⟩

/-- The done-flag discipline holds for every exit the loop produces. -/
theorem brandLoop_exit_done (responses : Nat → Option Json × String)
    (brand run_id now : String) : ∀ fuel idx st ex,
    brandLoop responses brand run_id now fuel idx st = some ex →
    (ex.kind = .fetchFail → ex.doc.done = false) ∧
    (ex.kind ≠ .fetchFail → ex.doc.done = true) := by
  intro fuel
  induction fuel with
  | zero =>
      intro idx st ex h
      rw [brandLoop_zero] at h
      cases h
  | succ fuel ih =>
      intro idx st ex h
      rw [brandLoop_succ] at h
      cases hstep : brandStep brand run_id now (responses idx) st with
      | inl ex2 =>
          rw [hstep] at h
          cases h
          exact brandStep_inl_done brand run_id now (responses idx) st _ hstep
      | inr st2 =>
          rw [hstep] at h
          exact ih (idx + 1) st2 ex h

/-- Once a total is known, the loop terminates: the offset strictly grows
by `TAKE` per page, so it reaches the total. -/
theorem brandLoop_total_terminates (responses : Nat → Option Json × String)
    (brand run_id now : String) : ∀ m idx st t, st.total_expected = some t →
    ((t - (st.skip : Int)).toNat ≤ m) →
    brandLoopTerminates responses brand run_id now idx st := by
  intro m
  induction m with
  | zero =>
      intro idx st t htot hle
      cases hstep : brandStep brand run_id now (responses idx) st with
      | inl ex => exact ⟨1, ex, by rw [brandLoop_succ, hstep]⟩
      | inr st2 =>
          exfalso
          obtain ⟨payload, _, _, _, _, htotal, hskip, hguard⟩ :=
            brandStep_inr_anatomy brand run_id now (responses idx) st st2 hstep
          have h2 : pageTotal st payload = some t := by
            simp [pageTotal, htot]
          have hlt := hguard t h2
          have hT : TAKE = 50 := rfl
          rw [hskip] at hlt
          omega
  | succ m ih =>
      intro idx st t htot hle
      cases hstep : brandStep brand run_id now (responses idx) st with
      | inl ex => exact ⟨1, ex, by rw [brandLoop_succ, hstep]⟩
      | inr st2 =>
          obtain ⟨payload, _, _, _, _, htotal, hskip, hguard⟩ :=
            brandStep_inr_anatomy brand run_id now (responses idx) st st2 hstep
          have h2 : pageTotal st payload = some t := by
            simp [pageTotal, htot]
          have hst2 : st2.total_expected = some t := htotal.trans h2
          have hlt := hguard t h2
          have hle2 : (t - (st2.skip : Int)).toNat ≤ m := by
            have hT : TAKE = 50 := rfl
            omega
          obtain ⟨fuel, ex, hrun⟩ := ih (idx + 1) st2 t hst2 hle2
          exact ⟨fuel + 1, ex, by rw [brandLoop_succ, hstep]; exact hrun⟩

/-- A trigger anywhere in the remaining stream forces termination. -/
theorem brandLoop_trigger_terminates (responses : Nat → Option Json × String)
    (brand run_id now : String) : ∀ d idx st, respTrigger (responses (idx + d)) →
    brandLoopTerminates responses brand run_id now idx st := by
  intro d
  induction d with
  | zero =>
      intro idx st htrig
      cases hstep : brandStep brand run_id now (responses idx) st with
      | inl ex => exact ⟨1, ex, by rw [brandLoop_succ, hstep]⟩
      | inr st2 =>
          rw [Nat.add_zero] at htrig
          obtain ⟨payload, hp, _, hnf, hns, htotal, hskip, hguard⟩ :=
            brandStep_inr_anatomy brand run_id now (responses idx) st st2 hstep
          rcases htrig with hf | hshort | hbind
          · exact absurd hf hnf
          · exact absurd hshort hns
          · by_cases hst : st.total_expected = none
            · have hpt : pageTotal st payload = extract_total payload := by
                simp [pageTotal, hst]
              rw [hp] at hbind
              have hbind2 : extract_total payload ≠ none := by simpa using hbind
              cases he : extract_total payload with
              | none => exact absurd he hbind2
              | some t =>
                  have hst2 : st2.total_expected = some t := by
                    rw [htotal, hpt, he]
                  obtain ⟨fuel, ex, hrun⟩ := brandLoop_total_terminates responses
                    brand run_id now ((t - (st2.skip : Int)).toNat) (idx + 1) st2 t hst2
                    (Nat.le_refl _)
                  exact ⟨fuel + 1, ex, by rw [brandLoop_succ, hstep]; exact hrun⟩
            · cases hopt : st.total_expected with
              | none => exact absurd hopt hst
              | some t0 =>
                  exact brandLoop_total_terminates responses brand run_id now
                    ((t0 - (st.skip : Int)).toNat) idx st t0 hopt (Nat.le_refl _)
  | succ d ih =>
      intro idx st htrig
      cases hstep : brandStep brand run_id now (responses idx) st with
      | inl ex => exact ⟨1, ex, by rw [brandLoop_succ, hstep]⟩
      | inr st2 =>
          have htrig2 : respTrigger (responses ((idx + 1) + d)) := by
            have harith : idx + 1 + d = idx + (d + 1) := by omega
            rw [harith]
            exact htrig
          obtain ⟨fuel, ex, hrun⟩ := ih (idx + 1) st2 htrig2
          exact ⟨fuel + 1, ex, by rw [brandLoop_succ, hstep]; exact hrun⟩

/-- On the stream of successful full pages with no total, the loop never
exits, whatever the fuel. -/
theorem c3_loop_never_exits : ∀ fuel idx st, st.total_expected = none →
    brandLoop c3resp "Acme" "r1" "t1" fuel idx st = none := by
  intro fuel
  induction fuel with
  | zero => intro idx st _; rfl
  | succ fuel ih =>
      intro idx st h
      rw [brandLoop_succ]
      have hpt : pageTotal st c3page = none := by
        simp [pageTotal, h, show extract_total c3page = none from rfl]
      have hstep : brandStep "Acme" "r1" "t1" (c3resp idx) st =
          .inr (advanceState "Acme" "r1" "t1" st c3page) := by
        show brandStep "Acme" "r1" "t1" (some c3page, "SUCCESS") st = _
        simp only [brandStep]
        rw [if_neg (by decide), if_neg (by decide), if_neg (by decide), hpt]
      rw [hstep]
      apply ih
      rw [advanceState_total, hpt]

/-- C3 counterexample: the claim quantifies over every response sequence,
but a stream of successful full pages (exactly `TAKE` items each) that
never carries a `total` keeps the loop running forever — no exit
condition ever fires, for any amount of fuel. -/
theorem brand_loop_nontermination_counterexample :
    ¬ brandLoopTerminates c3resp "Acme" "r1" "t1" 0 initLoopState := by
  rintro ⟨fuel, ex, hrun⟩
  rw [c3_loop_never_exits fuel 0 initLoopState rfl] at hrun
  cases hrun

/-- C3 (amended): for a brand starting without a learned total and
object-shaped payloads, the pagination loop terminates exactly when some
response at or after the current position is a trigger — a fetch failure,
an empty or short page (fewer than `TAKE` items), or a page carrying a
usable total; and every exit is one of the four modelled conditions, the
fetch-failure exit leaving the brand not done and the other three marking
it done.  (A stream of successful full pages with no total never
terminates, per the counterexample.) -/
theorem brand_loop_termination (responses : Nat → Option Json × String)
    (brand run_id now : String) (idx : Nat) (st : LoopState)
    (_hwf : ∀ n, RespWF (responses n)) (htn : st.total_expected = none) :
    (brandLoopTerminates responses brand run_id now idx st ↔
      ∃ n, idx ≤ n ∧ respTrigger (responses n)) ∧
    (∀ fuel ex, brandLoop responses brand run_id now fuel idx st = some ex →
      (ex.kind = .fetchFail → ex.doc.done = false) ∧
      (ex.kind ≠ .fetchFail → ex.doc.done = true)) := by
  refine ⟨⟨?_, ?_⟩, ?_⟩
  · rintro ⟨fuel, ex, hrun⟩
    rcases brandLoop_exit_trigger responses brand run_id now fuel idx st ex hrun with
      htot | h
    · exact absurd htn htot
    · exact h
  · rintro ⟨n, hn, htrig⟩
    have h2 : respTrigger (responses (idx + (n - idx))) := by
      have harith : idx + (n - idx) = n := by omega
      rw [harith]
      exact htrig
    exact brandLoop_trigger_terminates responses brand run_id now (n - idx) idx st h2
  · intro fuel ex hrun
    exact brandLoop_exit_done responses brand run_id now fuel idx st ex hrun

/-- Witness for C3 (amended): a stream of one-item (short) pages makes the
loop terminate from the initial state. -/
theorem brand_loop_termination_witness :
    brandLoopTerminates c3wresp "B" "r1" "t1" 0 initLoopState :=
  (brand_loop_termination c3wresp "B" "r1" "t1" 0 initLoopState
    (by intro n j hj
        simp only [c3wresp] at hj
        cases hj
        rfl)
    rfl).1.mpr ⟨0, Nat.le_refl 0, Or.inr (Or.inl (by decide))⟩

end Iga
